import Mathlib

/-!
Shallow embedding of the core of the ve BitTorrent-family client:
the peer session wire parser and event loop (internal/peer/peer.go),
the client registry (internal/client/c.go, internal/client/d.go),
and the configuration loader (internal/config/config.go).

Machine integers (u32 fields, bytes) are modelled as Nat; byte streams as
List Nat; the xsync request map as a finite set of requests; the kelindar
bitmap as a finite set of piece indices; atomic bools as plain Bool.
-/

/-- Block request, from req.Request: piece index, begin offset and length,
three u32 fields. -/
structure Request where
  PieceIndex : Nat
  Begin : Nat
  Length : Nat
deriving DecidableEq

/-- Block response, from req.Response: piece index, begin offset and the
data bytes. -/
structure Response where
  PieceIndex : Nat
  Begin : Nat
  Data : List Nat
deriving DecidableEq

namespace proto

/-- Modelled from the spec: the wire message ids of the proto package, which
is not under src/. Section 4.1 fixes choke=0, unchoke=1, interested=2,
not-interested=3, have=4, bitfield=5, request=6, piece=7, cancel=8.
A proto.Message is one byte. -/
abbrev Message := Nat

def Choke : Message := 0

def Unchoke : Message := 1

def Interested : Message := 2

def NotInterested : Message := 3

def Have : Message := 4

def Bitfield : Message := 5

def Request : Message := 6

def Piece : Message := 7

def Cancel : Message := 8

end proto

/-- Per-session peer state, from the Peer struct in peer.go: the
xsync.MapOf request map becomes a finite set of requests, the kelindar
bitmap a finite set of piece indices, the atomic bools plain bools. -/
structure Peer where
  requests : Finset Request
  Bitmap : Finset Nat
  InfoHash : List Nat
  Address : String
  bitmapLen : Nat
  dead : Bool
  Choked : Bool
  Interested : Bool
deriving DecidableEq

/-- Typed event decoded from the wire, from the Event struct in peer.go. -/
structure Event where
  Bitmap : Finset Nat
  Res : Response
  Req : Request
  Index : Nat
  Event : proto.Message
  keepAlive : Bool
deriving DecidableEq

/-- The zero value of Event in Go: empty bitmap, zero-valued response and
request, index 0, message id 0, keepAlive false. DecodeEvents returns this
value for an inbound keep-alive frame. -/
def emptyEvent : Event :=
  { Bitmap := ∅, Res := ⟨0, 0, []⟩, Req := ⟨0, 0, 0⟩, Index := 0, Event := 0, keepAlive := false }

/-- Errors of the inbound parsing path: transport read failures, and
ErrPeerSendInvalidData from peer.go. -/
inductive DecodeError where
  | ioError
  | invalidData
deriving DecidableEq

/-- Decidable equality of fallible results, so that concrete parses can be
checked by evaluation. -/
instance instDecEqExcept {ε α : Type} [DecidableEq ε] [DecidableEq α] :
    DecidableEq (Except ε α) := fun a b =>
  match a, b with
  | .error e, .error f =>
    if h : e = f then isTrue (congrArg Except.error h)
    else isFalse fun hc => h (Except.error.inj hc)
  | .ok x, .ok y =>
    if h : x = y then isTrue (congrArg Except.ok h)
    else isFalse fun hc => h (Except.ok.inj hc)
  | .error _, .ok _ => isFalse fun hc => Except.noConfusion hc
  | .ok _, .error _ => isFalse fun hc => Except.noConfusion hc

/-- A full read of n bytes from the stream; a stream shorter than n is a
transport read error. -/
def readN (s : List Nat) (n : Nat) : Except DecodeError (List Nat × List Nat) :=
  if n ≤ s.length then .ok (s.take n, s.drop n) else .error .ioError

/-- binary.BigEndian.Uint32 over a 4-byte buffer. -/
def beUint32 (b : List Nat) : Nat :=
  ((b.getD 0 0 * 256 + b.getD 1 0) * 256 + b.getD 2 0) * 256 + b.getD 3 0

/-- Bitfield bytes to a set of piece indices, MSB-first within each byte:
the bit for piece i lives in byte i / 8 at bit position 7 - i % 8. -/
def bitsToSet (bytes : List Nat) : Finset Nat :=
  (Finset.range (8 * bytes.length)).filter fun i => (bytes.getD (i / 8) 0).testBit (7 - i % 8)

/-- Modelled from the spec: decodeHave is called from DecodeEvents but its
body is not under src/. Section 4.1 gives the have payload as one u32
index, and declares any message whose length is inconsistent with its id
(have with length ≠ 5) invalid data. -/
def decodeHave (l : Nat) (s : List Nat) : Except DecodeError (Event × List Nat) :=
  if l = 5 then
    match readN s 4 with
    | .error e => .error e
    | .ok (b, rest) => .ok ({ emptyEvent with Event := proto.Have, Index := beUint32 b }, rest)
  else .error .invalidData

/-- Modelled from the spec: decodeBitfield is called from DecodeEvents but
its body is not under src/. The payload is bitmapLen = ceil(pieceNum / 8)
bytes decoded MSB-first, so the declared length must be bitmapLen + 1;
an inconsistent length is invalid data. -/
def decodeBitfield (p : Peer) (l : Nat) (s : List Nat) : Except DecodeError (Event × List Nat) :=
  if l = p.bitmapLen + 1 then
    match readN s (l - 1) with
    | .error e => .error e
    | .ok (b, rest) => .ok ({ emptyEvent with Event := proto.Bitfield, Bitmap := bitsToSet b }, rest)
  else .error .invalidData

/-- DecodeEvents, from peer.go: read the 4-byte big-endian length word;
length zero is keep-alive and returns the zero-valued Event consuming only
the length word; otherwise read the one-byte message id and dispatch.
Bitfield and have have decoders; interested, not-interested, choke and
unchoke return immediately with no length check; every other id has l - 1
payload bytes drained and discarded. -/
def DecodeEvents (p : Peer) (s : List Nat) : Except DecodeError (Event × List Nat) :=
  match readN s 4 with
  | .error e => .error e
  | .ok (b4, s1) =>
    let l := beUint32 b4
    if l = 0 then .ok (emptyEvent, s1)
    else
      match readN s1 1 with
      | .error e => .error e
      | .ok (b1, s2) =>
        let evt := b1.getD 0 0
        if evt = proto.Bitfield then decodeBitfield p l s2
        else if evt = proto.Have then decodeHave l s2
        else if evt = proto.Interested ∨ evt = proto.NotInterested ∨
            evt = proto.Choke ∨ evt = proto.Unchoke then
          .ok ({ emptyEvent with Event := evt }, s2)
        else
          match readN s2 (l - 1) with
          | .error e => .error e
          | .ok (_, s3) => .ok ({ emptyEvent with Event := evt }, s3)

/-- The request implied by a response, as built inside validateRes:
piece index, begin, and the length of the data. -/
def impliedRequest (res : Response) : Request :=
  { PieceIndex := res.PieceIndex, Begin := res.Begin, Length := res.Data.length }

/-- validateRes, from peer.go: look the implied request up in the
outstanding request map and delete it on a hit. Returns the bool result
together with the updated peer. -/
def validateRes (p : Peer) (res : Response) : Bool × Peer :=
  let r := impliedRequest res
  if r ∈ p.requests then (true, { p with requests := p.requests.erase r })
  else (false, p)

/-- kelindar bitmap Xor: symmetric difference of the index sets. -/
def bmXor (a b : Finset Nat) : Finset Nat := (a ∪ b) \ (a ∩ b)

/-- One iteration of the read loop's switch in start (peer.go): returns the
updated peer, the responses delivered on resChan, and whether the session
terminated (connection closed; the deferred cancel sets dead). Ids with no
case in the switch leave the peer unchanged and the loop continues. -/
def handleEvent (p : Peer) (e : Event) : Peer × List Response × Bool :=
  if e.Event = proto.Bitfield then ({ p with Bitmap := bmXor p.Bitmap e.Bitmap }, [], false)
  else if e.Event = proto.Have then ({ p with Bitmap := insert e.Index p.Bitmap }, [], false)
  else if e.Event = proto.Interested then ({ p with Interested := true }, [], false)
  else if e.Event = proto.NotInterested then ({ p with Interested := false }, [], false)
  else if e.Event = proto.Choke then ({ p with Choked := true }, [], false)
  else if e.Event = proto.Unchoke then ({ p with Choked := false }, [], false)
  else if e.Event = proto.Piece then
    match validateRes p e.Res with
    | (true, q) => (q, [e.Res], false)
    | (false, q) => ({ q with dead := true }, [], true)
  else (p, [], false)

/-- A piece event carrying a response, as produced for the Piece case of
the read loop. -/
def pieceEvent (s : Response) : Event := { emptyEvent with Event := proto.Piece, Res := s }

/-- One round of the read loop in start (peer.go): decode one event from
the stream; any decode error closes the connection and ends the session;
otherwise dispatch through the switch. -/
inductive LoopOutcome where
  | dead (p : Peer)
  | alive (p : Peer) (delivered : List Response) (rest : List Nat)
deriving DecidableEq

/-- One iteration of the read loop: DecodeEvents then the event switch. -/
def readLoopStep (p : Peer) (s : List Nat) : LoopOutcome :=
  match DecodeEvents p s with
  | .error _ => .dead { p with dead := true }
  | .ok (e, rest) =>
    match handleEvent p e with
    | (q, _, true) => .dead q
    | (q, out, false) => .alive q out rest

/-- The read loop of start run with fuel over a byte stream, accumulating
the responses delivered to the download task. -/
def runLoop : Nat → Peer → List Nat → Peer × List Response
  | 0, p, _ => (p, [])
  | n + 1, p, s =>
    match readLoopStep p s with
    | .dead q => (q, [])
    | .alive q out rest =>
      let (q2, outs) := runLoop n q rest
      (q2, out ++ outs)

/-- A sample peer for concrete runs: 4 pieces, so bitmapLen 1. -/
def p0 : Peer :=
  { requests := ∅, Bitmap := ∅, InfoHash := List.replicate 20 0, Address := "",
    bitmapLen := 1, dead := false, Choked := true, Interested := false }

/-- A sample outstanding request and a response matching it. -/
def r1 : Request := ⟨0, 0, 3⟩

def s1 : Response := ⟨0, 0, [7, 8, 9]⟩

def p1 : Peer := { p0 with requests := {r1} }

/-- Actions of the session's write loop, in program order: storing a
request into the outstanding map, and writing bytes to the transport. -/
inductive WireAction where
  | storeOutstanding (r : Request)
  | writeBytes (bs : List Nat)
deriving DecidableEq

/-- Big-endian u32 encoding of a number into 4 bytes. -/
def u32be (n : Nat) : List Nat :=
  [n / 2 ^ 24 % 256, n / 2 ^ 16 % 256, n / 2 ^ 8 % 256, n % 256]

/-- Modelled from the spec: proto.SendRequest is called from sendEvent but
its body is not under src/. A request frame is length-prefixed with length
13, then the request id, then three big-endian u32 fields. -/
def encodeRequest (r : Request) : List Nat :=
  u32be 13 ++ [proto.Request] ++ u32be r.PieceIndex ++ u32be r.Begin ++ u32be r.Length

/-- The write loop body in start (peer.go): on receiving a request from
reqChan, first store it into the outstanding map, then sendEvent writes the
request frame under the session mutex. The trace lists the two actions in
program order. -/
def writeLoopStep (p : Peer) (r : Request) : Peer × List WireAction :=
  let q := { p with requests := insert r p.requests }
  (q, [WireAction.storeOutstanding r, WireAction.writeBytes (encodeRequest r)])

/-- The write loop over a queue of submitted requests, concatenating the
action traces in order. -/
def writeLoop (p : Peer) : List Request → Peer × List WireAction
  | [] => (p, [])
  | r :: rs =>
    let (q, as) := writeLoopStep p r
    let (q2, as2) := writeLoop q rs
    (q2, as ++ as2)

/-- Replay of a trace of write-loop actions on a peer: stores update the
outstanding map, transport writes leave the peer unchanged. -/
def execWrites (p : Peer) : List WireAction → Peer
  | [] => p
  | WireAction.storeOutstanding r :: rest =>
    execWrites { p with requests := insert r p.requests } rest
  | WireAction.writeBytes _ :: rest => execWrites p rest

/-- The 20-byte all-zero info hash. -/
def zeroHash : List Nat := List.replicate 20 0

/-- Result of reading the remote 68-byte handshake: info hash and peer id. -/
structure HandshakeResult where
  infoHash : List Nat
  peerID : List Nat
deriving DecidableEq

/-- The Go zero value of the handshake result, left in h when
p.Handshake() returns an error. -/
def zeroHandshakeResult : HandshakeResult := ⟨zeroHash, List.replicate 20 0⟩

/-- The handshake phase of start for a non-initiating session (peer.go):
the error from p.Handshake() is tested but its branch body is empty, so a
read error leaves h at its zero value and execution falls through to the
info-hash comparison; the session continues exactly when h.InfoHash equals
the expected info hash, and otherwise returns, where the deferred cancel
sets dead. (p.Handshake() itself is not under src/; per the spec it reads
the 68-byte fixed frame and yields info hash and peer id.) -/
def startHandshakePhase (p : Peer) (res : Except Unit HandshakeResult) : Peer × Bool :=
  let h := match res with
    | .error _ => zeroHandshakeResult
    | .ok v => v
  if h.infoHash = p.InfoHash then (p, true)
  else ({ p with dead := true }, false)

/-- Application section of the TOML configuration, from config.go. -/
structure Application where
  DownloadDir : String
  Crypto : String
  MaxHTTPParallel : Nat
  P2PPort : Nat
  NumWant : Nat
  GlobalConnectionLimit : Nat
  Fallocate : Bool
deriving DecidableEq

/-- Top-level configuration, from config.go. -/
structure Config where
  App : Application
deriving DecidableEq

/-- Outcome of toml.DecodeFile: the path does not exist, some other
decode or read error, or a successful decode applying the file's
key-value pairs onto the passed configuration. -/
inductive TomlDecodeResult where
  | errNotExist
  | errOther
  | ok (update : Application → Application)

/-- The download-dir fallback at the end of LoadFromFile (config.go): when
DownloadDir is still empty, join the user's home directory with
"downloads". -/
def fillDownloadDir (cfg : Config) (homeDir : String) : Config :=
  if cfg.App.DownloadDir = "" then ⟨{ cfg.App with DownloadDir := homeDir ++ "/downloads" }⟩
  else cfg

/-- LoadFromFile, from config.go: start from the defaults
MaxHTTPParallel = 100 and GlobalConnectionLimit = 50 with all other fields
zero-valued; a decode error is returned unless it is not-exist, which is
ignored; then apply the download-dir fallback. The filesystem outcome and
the home directory are passed as parameters. -/
def LoadFromFile (fileResult : TomlDecodeResult) (homeDir : String) : Except String Config :=
  let cfg : Config := ⟨⟨"", "", 100, 0, 0, 50, false⟩⟩
  match fileResult with
  | .errOther => .error "failed to parse config file"
  | .errNotExist => .ok (fillDownloadDir cfg homeDir)
  | .ok update => .ok (fillDownloadDir ⟨update cfg.App⟩ homeDir)

/-- Client registry state, from the Client struct in c.go: the download
map keys, the downloads slice, the semaphore capacity fixed at
construction, and the current number of admitted connections. -/
structure Client where
  semCapacity : Nat
  connCount : Nat
  downloadMap : List (List Nat)
  cfg : Config
deriving DecidableEq

/-- New, from c.go: validates the crypto mode (an unknown mode panics,
modelled as none) and constructs the client with an empty download map and
the connection semaphore created as semaphore.NewWeighted(50) — the
literal 50, not the configured limit. -/
def Client.New (cfg : Config) : Option Client :=
  if cfg.App.Crypto = "force" ∨ cfg.App.Crypto = "" ∨ cfg.App.Crypto = "prefer" ∨
      cfg.App.Crypto = "prefer-not" ∨ cfg.App.Crypto = "disable" then
    some { semCapacity := 50, connCount := 0, downloadMap := [], cfg := cfg }
  else none

/-- Modelled from the spec: the inbound admission path is not under src/;
section 4.3 says accept acquires a semaphore permit with a non-blocking
try and rejects the connection when at capacity. -/
def Client.accept (c : Client) : Client × Bool :=
  if c.connCount < c.semCapacity then ({ c with connCount := c.connCount + 1 }, true)
  else (c, false)

/-- n successive inbound connections offered to the client. -/
def Client.acceptN (c : Client) : Nat → Client
  | 0 => c
  | n + 1 => (Client.acceptN c n).accept.1

/-- AddTorrent, from c.go: report an error when the info hash is already
in the download map, otherwise register exactly one new download task
under it. -/
def Client.AddTorrent (c : Client) (h : List Nat) : Except String Client :=
  if h ∈ c.downloadMap then .error "torrent exists"
  else .ok { c with downloadMap := h :: c.downloadMap }

/-- A sequence of AddTorrent calls; failed calls leave the client as it
was. -/
def Client.runAdds (c : Client) : List (List Nat) → Client
  | [] => c
  | h :: hs =>
    match c.AddTorrent h with
    | .error _ => Client.runAdds c hs
    | .ok c2 => Client.runAdds c2 hs

/-- A configuration whose global-connections-limit is 10. -/
def cfg10 : Config := ⟨⟨"", "", 100, 0, 0, 10, false⟩⟩

/-- The client built by New from cfg10. -/
def cNew10 : Client := { semCapacity := 50, connCount := 0, downloadMap := [], cfg := cfg10 }

/-- A peer that the remote has unchoked. -/
def pUnchoked : Peer := { p0 with Choked := false }

/-- C1: the switch of DecodeEvents has no case for the piece id, so a
piece frame received from the wire falls into the drain branch: its
payload is discarded and the event reaches the read loop with a
zero-valued Response. A solicited piece frame — index 0, begin 0, three
data bytes, while exactly Request(0, 0, 3) is outstanding — therefore
fails validateRes (which looks up Request(0, 0, 0)) and kills the
session with nothing delivered, instead of erasing the entry and handing
the Response to the download task. -/
theorem c1_wire_piece_never_delivered :
    impliedRequest ⟨0, 0, [7, 8, 9]⟩ ∈ p1.requests ∧
    DecodeEvents p1 [0, 0, 0, 12, 7, 0, 0, 0, 0, 0, 0, 0, 0, 7, 8, 9]
      = .ok ({ emptyEvent with Event := proto.Piece }, []) ∧
    readLoopStep p1 [0, 0, 0, 12, 7, 0, 0, 0, 0, 0, 0, 0, 0, 7, 8, 9]
      = .dead { p1 with dead := true } ∧
    runLoop 2 p1 [0, 0, 0, 12, 7, 0, 0, 0, 0, 0, 0, 0, 0, 7, 8, 9]
      = ({ p1 with dead := true }, []) := by
  refine ⟨?_, ?_, ?_, ?_⟩ <;> decide

/-- C10: once a response has been accepted (its implied request erased
from the outstanding set), an identical second response with no
re-submission in between fails validateRes and terminates the session. -/
theorem c10_second_response_rejected (p : Peer) (s : Response)
    (h : impliedRequest s ∈ p.requests) :
    handleEvent p (pieceEvent s)
        = ({ p with requests := p.requests.erase (impliedRequest s) }, [s], false) ∧
    (validateRes { p with requests := p.requests.erase (impliedRequest s) } s).1 = false ∧
    handleEvent { p with requests := p.requests.erase (impliedRequest s) } (pieceEvent s)
        = ({ p with requests := p.requests.erase (impliedRequest s), dead := true }, [], true) := by
  have h2 : impliedRequest s ∉ p.requests.erase (impliedRequest s) :=
    Finset.not_mem_erase _ _
  refine ⟨?_, ?_, ?_⟩ <;>
    simp [handleEvent, pieceEvent, emptyEvent, validateRes, h, h2, proto.Piece, proto.Bitfield,
      proto.Have, proto.Interested, proto.NotInterested, proto.Choke, proto.Unchoke]

/-- Witness for C10 at a concrete peer and response. -/
theorem c10_second_response_rejected_witness :
    handleEvent p1 (pieceEvent s1)
        = ({ p1 with requests := p1.requests.erase (impliedRequest s1) }, [s1], false) ∧
    (validateRes { p1 with requests := p1.requests.erase (impliedRequest s1) } s1).1 = false ∧
    handleEvent { p1 with requests := p1.requests.erase (impliedRequest s1) } (pieceEvent s1)
        = ({ p1 with requests := p1.requests.erase (impliedRequest s1), dead := true }, [], true) :=
  c10_second_response_rejected p1 s1 (by decide)

/-- Helper: a full 4-byte read from a stream with at least four elements. -/
theorem readN_cons4 (a b c d : Nat) (t : List Nat) :
    readN (a :: b :: c :: d :: t) 4 = .ok ([a, b, c, d], t) := by
  simp [readN, Nat.le_add_left]

/-- Helper: a 1-byte read from a nonempty stream. -/
theorem readN_cons1 (a : Nat) (t : List Nat) :
    readN (a :: t) 1 = .ok ([a], t) := by
  simp [readN, Nat.le_add_left]

/-- C2: New creates the connection semaphore with the literal capacity 50
for every configuration; with global-connections-limit set to 10, eleven
successive inbound connections are all admitted, so the inflight count
exceeds the configured cap. -/
theorem c2_cap_ignores_configured_limit :
    (Client.New cfg10).map (fun c => ((c.acceptN 11).connCount, c.semCapacity))
      = some (11, 50) ∧
    cfg10.App.GlobalConnectionLimit = 10 := by
  constructor <;> rfl

/-- C3 counterexample: processing a have frame, then a bitfield frame, then
another have frame, the bitfield at the second position does not terminate
the session (the third frame is still processed and dead stays false), and
the bitfield is folded in by Xor rather than replacement: after the
bitfield frame the bitmap is empty, the piece-0 bit set by the first have
having been toggled off. -/
theorem c3_counterexample :
    (runLoop 2 p0 ([0, 0, 0, 5, 4, 0, 0, 0, 0] ++ [0, 0, 0, 2, 5, 128])).1.Bitmap = ∅ ∧
    (runLoop 3 p0
        ([0, 0, 0, 5, 4, 0, 0, 0, 0] ++ [0, 0, 0, 2, 5, 128] ++
          [0, 0, 0, 5, 4, 0, 0, 0, 3])).1.dead = false ∧
    (runLoop 3 p0
        ([0, 0, 0, 5, 4, 0, 0, 0, 0] ++ [0, 0, 0, 2, 5, 128] ++
          [0, 0, 0, 5, 4, 0, 0, 0, 3])).1.Bitmap = {3} := by
  refine ⟨?_, ?_, ?_⟩ <;> decide

/-- C3 amended: a bitfield event combines into the remote bitmap by Xor
and never terminates the session, at whatever position it arrives; when
the current bitmap is empty — as for a bitfield that is the first message
— the Xor coincides with replacement. -/
theorem c3_bitfield_xor (p : Peer) (b : Finset Nat) :
    handleEvent p { emptyEvent with Event := proto.Bitfield, Bitmap := b }
      = ({ p with Bitmap := bmXor p.Bitmap b }, [], false) ∧
    (p.Bitmap = ∅ → bmXor p.Bitmap b = b) := by
  constructor
  · simp [handleEvent, emptyEvent, proto.Bitfield]
  · intro h
    simp [bmXor, h]

/-- Witness for C3 amended at a concrete peer with an empty bitmap. -/
theorem c3_bitfield_xor_witness :
    p0.Bitmap = ∅ ∧ bmXor p0.Bitmap {0} = {0} :=
  ⟨by decide, (c3_bitfield_xor p0 {0}).2 (by decide)⟩

/-- C4: the error of the handshake read is tested but its branch is empty,
so it is silently swallowed; with an all-zero expected info hash a failed
handshake leaves the zero-valued result equal to the expectation and the
session continues instead of terminating. A genuine info-hash mismatch
does terminate the session with dead set. -/
theorem c4_handshake_error_swallowed :
    (startHandshakePhase p0 (.error ())).2 = true ∧
    (startHandshakePhase p0 (.error ())).1.dead = false ∧
    (startHandshakePhase { p0 with InfoHash := List.replicate 20 1 } (.error ())).2 = false ∧
    (startHandshakePhase { p0 with InfoHash := List.replicate 20 1 }
        (.ok ⟨List.replicate 20 2, zeroHash⟩)).1.dead = true := by
  refine ⟨?_, ?_, ?_, ?_⟩ <;> decide

/-- C5 counterexample: a choke frame with declared length 5 (≠ 1) is
accepted by DecodeEvents with no error — there is no invalid-data
termination — and the four excess payload bytes are left in the stream. -/
theorem c5_counterexample :
    DecodeEvents p0 [0, 0, 0, 5, 0] = .ok ({ emptyEvent with Event := proto.Choke }, []) ∧
    DecodeEvents p0 [0, 0, 0, 5, 0] ≠ .error .invalidData := by
  constructor <;> decide

/-- C5 amended: a have frame with declared length ≠ 5 terminates the parse
with invalid data, but a choke, unchoke, interested or not-interested
frame is accepted whatever nonzero length its four length bytes declare:
no length check is made for these ids and the declared payload is left
unconsumed in the stream. -/
theorem c5_length_validation (l : Nat) (s : List Nat) (p : Peer) (evt b0 b1 b2 b3 : Nat)
    (rest : List Nat) (hl : l ≠ 5) (hlen : beUint32 [b0, b1, b2, b3] ≠ 0)
    (hevt : evt = proto.Choke ∨ evt = proto.Unchoke ∨ evt = proto.Interested ∨
      evt = proto.NotInterested) :
    decodeHave l s = .error .invalidData ∧
    DecodeEvents p ([b0, b1, b2, b3, evt] ++ rest)
      = .ok ({ emptyEvent with Event := evt }, rest) := by
  constructor
  · simp [decodeHave, hl]
  · rcases hevt with h | h | h | h <;> subst h <;>
      simp [DecodeEvents, readN_cons4, readN_cons1, hlen, proto.Choke, proto.Unchoke,
        proto.Interested, proto.NotInterested, proto.Bitfield, proto.Have, emptyEvent]

/-- Witness for C5 amended: have with length 3 is invalid data; a choke
frame claiming length 5 is accepted and the stream position is unchanged
past the id byte. -/
theorem c5_length_validation_witness :
    decodeHave 3 [] = .error .invalidData ∧
    DecodeEvents p0 ([0, 0, 0, 5, 0] ++ [9]) = .ok ({ emptyEvent with Event := 0 }, [9]) :=
  c5_length_validation 3 [] p0 0 0 0 0 5 [9] (by decide) (by decide) (Or.inl rfl)

/-- C6: a zero-length frame is parsed as keep-alive consuming only the
4-byte length word — the id byte and payload positions are untouched — but
the zero-valued event it returns carries message id 0, the choke id, so
the read loop's switch stores Choked := true: the session state is not
left unchanged by the frame. -/
theorem c6_keepalive_chokes :
    DecodeEvents pUnchoked ([0, 0, 0, 0] ++ [9, 9]) = .ok (emptyEvent, [9, 9]) ∧
    pUnchoked.Choked = false ∧
    readLoopStep pUnchoked ([0, 0, 0, 0] ++ [9, 9])
      = .alive { pUnchoked with Choked := true } [] [9, 9] := by
  refine ⟨?_, ?_, ?_⟩ <;> decide

/-- Helper: a sequence of AddTorrent calls keeps the download-map keys
free of duplicates. -/
theorem runAdds_nodup (c : Client) (hs : List (List Nat)) (hnd : c.downloadMap.Nodup) :
    (Client.runAdds c hs).downloadMap.Nodup := by
  induction hs generalizing c with
  | nil => simpa [Client.runAdds] using hnd
  | cons h t ih =>
    by_cases hmem : h ∈ c.downloadMap
    · simpa [Client.runAdds, Client.AddTorrent, hmem] using ih c hnd
    · simpa [Client.runAdds, Client.AddTorrent, hmem] using
        ih { c with downloadMap := h :: c.downloadMap }
          (List.nodup_cons.mpr ⟨hmem, hnd⟩)

/-- C7: AddTorrent fails with an error and registers nothing when the info
hash is already present, registers exactly one new task on success, and
after any sequence of AddTorrent calls on a freshly constructed client
every info hash occurs at most once in the registry. -/
theorem c7_add_torrent (c : Client) (h : List Nat) (cfg : Config) (c0 : Client)
    (hs : List (List Nat)) (hnew : Client.New cfg = some c0) :
    (h ∈ c.downloadMap → c.AddTorrent h = .error "torrent exists") ∧
    (h ∉ c.downloadMap → c.AddTorrent h = .ok { c with downloadMap := h :: c.downloadMap }) ∧
    (Client.runAdds c0 hs).downloadMap.Nodup := by
  refine ⟨fun hmem => by simp [Client.AddTorrent, hmem],
    fun hmem => by simp [Client.AddTorrent, hmem], ?_⟩
  have hempty : c0.downloadMap = [] := by
    unfold Client.New at hnew
    split at hnew
    · rw [Option.some.injEq] at hnew
      rw [← hnew]
    · exact absurd hnew (by simp)
  exact runAdds_nodup c0 hs (by rw [hempty]; exact List.nodup_nil)

/-- Witness for C7 at a concrete client, info hash and call sequence. -/
theorem c7_add_torrent_witness :
    (zeroHash ∈ cNew10.downloadMap → cNew10.AddTorrent zeroHash = .error "torrent exists") ∧
    (zeroHash ∉ cNew10.downloadMap →
      cNew10.AddTorrent zeroHash
        = .ok { cNew10 with downloadMap := zeroHash :: cNew10.downloadMap }) ∧
    (Client.runAdds cNew10 [zeroHash, zeroHash]).downloadMap.Nodup :=
  c7_add_torrent cNew10 zeroHash cfg10 cNew10 [zeroHash, zeroHash] (by decide)

/-- C8: whenever the write loop's action trace writes the encoded bytes of
a request message, replaying the trace up to (excluding) that write
already has the corresponding request stored in the outstanding set: the
store happens before any request bytes reach the transport. -/
theorem c8_store_before_write (p : Peer) (rs : List Request) (i : Nat) (bs : List Nat)
    (hw : (writeLoop p rs).2[i]? = some (WireAction.writeBytes bs)) :
    ∃ r, bs = encodeRequest r ∧
      r ∈ (execWrites p ((writeLoop p rs).2.take i)).requests := by
  induction rs generalizing p i with
  | nil => simp [writeLoop] at hw
  | cons r t ih =>
    have hT : (writeLoop p (r :: t)).2
        = WireAction.storeOutstanding r :: WireAction.writeBytes (encodeRequest r) ::
          (writeLoop { p with requests := insert r p.requests } t).2 := by
      simp [writeLoop, writeLoopStep]
    rw [hT] at hw ⊢
    match i with
    | 0 => simp at hw
    | 1 =>
      refine ⟨r, ?_, ?_⟩
      · simp at hw
        exact hw.symm
      · simp [execWrites, Finset.mem_insert_self]
    | (n + 2) =>
      simp only [List.getElem?_cons_succ] at hw
      have hih := ih { p with requests := insert r p.requests } n hw
      simpa [List.take_succ_cons, execWrites] using hih

/-- Witness for C8: the trace of one submitted request writes its frame at
index 1, and after the store at index 0 the request is outstanding. -/
theorem c8_store_before_write_witness :
    ∃ r, encodeRequest r1 = encodeRequest r ∧
      r ∈ (execWrites p0 ((writeLoop p0 [r1]).2.take 1)).requests :=
  c8_store_before_write p0 [r1] 1 (encodeRequest r1) (by decide)

/-- C9: when the configuration file does not exist, LoadFromFile succeeds
and yields the defaults: MaxHTTPParallel 100, GlobalConnectionLimit 50,
and the download directory the home directory joined with "downloads". -/
theorem c9_missing_file_defaults (homeDir : String) :
    LoadFromFile .errNotExist homeDir
      = .ok ⟨⟨homeDir ++ "/downloads", "", 100, 0, 0, 50, false⟩⟩ := by
  simp [LoadFromFile, fillDownloadDir]
